import Mathlib

set_option autoImplicit false

/-
Verification of computeSales.py: the catalogue builder create_price_catalogue
and the aggregator func_total_cost, embedded shallowly.  Python values parsed
from JSON are modelled by the inductive type JVal; Python floats are idealised
as rationals, so arithmetic identities are exact.  Python raises a TypeError
when an unhashable value (a list or a dict) is used as a dictionary key, and
treats bool as a subtype of int, so isinstance(x, (int, float)) is true for
booleans; both behaviours are modelled faithfully below.
-/

namespace ComputeSales

/-- A JSON value as produced by the Python function json.load: null, bool,
int, float, string, array, or object.  Floats are idealised as rationals. -/
inductive JVal where
  | jnull
  | jbool (b : Bool)
  | jint (n : Int)
  | jfloat (q : ℚ)
  | jstr (s : String)
  | jlist (xs : List JVal)
  | jobj (fields : List (String × JVal))

/-- Python truthiness of a JSON value: None, False, 0, 0.0, empty string,
empty list and empty dict are falsy, everything else is truthy. -/
def pyTruthy : JVal → Bool
  | .jnull => false
  | .jbool b => b
  | .jint n => n != 0
  | .jfloat q => decide (q ≠ 0)
  | .jstr s => s != ""
  | .jlist xs => !xs.isEmpty
  | .jobj fs => !fs.isEmpty

/-- Numeric value of a JSON value, if it has one.  In Python, bool is a
subtype of int with True == 1 and False == 0. -/
def toRat : JVal → Option ℚ
  | .jbool b => some (if b then 1 else 0)
  | .jint n => some (n : ℚ)
  | .jfloat q => some q
  | _ => none

/-- The check isinstance(x, (int, float)) of the source.  Because bool is a
subtype of int in Python, booleans pass this check. -/
def isNum : JVal → Bool
  | .jbool _ => true
  | .jint _ => true
  | .jfloat _ => true
  | _ => false

/-- Whether a JSON value may be used as a Python dictionary key: lists and
dicts are unhashable, using one as a key raises a TypeError. -/
def hashable : JVal → Bool
  | .jlist _ => false
  | .jobj _ => false
  | _ => true

/-- Python equality as used on dictionary keys: numeric values (bool, int,
float) compare by value across types, strings by content, None to None.
Within this development it is only applied to hashable values, where it
coincides with Python ==. -/
def pyEq (a b : JVal) : Bool :=
  match toRat a, toRat b with
  | some x, some y => decide (x = y)
  | _, _ =>
    match a, b with
    | .jstr s, .jstr t => s == t
    | .jnull, .jnull => true
    | _, _ => false

/-- The exceptions the embedded code can raise. -/
inductive PyErr where
  | typeError

/-- A Python dict with JVal keys, as an association list with pairwise
inequivalent keys (maintained by dictSetKnown). -/
abbrev PyDict := List (JVal × JVal)

/-- Lookup in a dict, comparing keys with Python equality. -/
def dictFind : PyDict → JVal → Option JVal
  | [], _ => none
  | (k0, v0) :: rest, k => if pyEq k0 k then some v0 else dictFind rest k

/-- Assignment d[k] = v for a hashable key: on overwrite Python keeps the
originally stored key object and replaces only the value. -/
def dictSetKnown : PyDict → JVal → JVal → PyDict
  | [], k, v => [(k, v)]
  | (k0, v0) :: rest, k, v =>
      if pyEq k0 k then (k0, v) :: rest else (k0, v0) :: dictSetKnown rest k v

/-- Assignment d[k] = v; raises TypeError when the key is unhashable. -/
def dictSet (d : PyDict) (k v : JVal) : Except PyErr PyDict :=
  if hashable k then .ok (dictSetKnown d k v) else .error .typeError

/-- Membership test k in d; raises TypeError when k is unhashable. -/
def dictContains (d : PyDict) (k : JVal) : Except PyErr Bool :=
  if hashable k then .ok (dictFind d k).isSome else .error .typeError

/-- A parsed JSON object (a product entry or a sale record): string keys to
JSON values.  Keys are unique after parsing, so first match suffices. -/
abbrev Entry := List (String × JVal)

/-- The method call e.get(k) on a parsed object: the stored value, or None
when the key is absent. -/
def entryGet : Entry → String → JVal
  | [], _ => .jnull
  | (k0, v0) :: rest, k => if k0 == k then v0 else entryGet rest k

/-- Loop of create_price_catalogue with the accumulated dict explicit:
for each item read title and price and, when title is truthy and price
passes isinstance(price, (int, float)), set price_dict[title] = price. -/
def create_price_catalogue_from : PyDict → List Entry → Except PyErr PyDict
  | price_dict, [] => .ok price_dict
  | price_dict, item :: rest =>
      let title := entryGet item "title"
      let price := entryGet item "price"
      if pyTruthy title && isNum price then
        match dictSet price_dict title price with
        | .ok d => create_price_catalogue_from d rest
        | .error e => .error e
      else
        create_price_catalogue_from price_dict rest

/-- create_price_catalogue of the source: builds the price dict from the
product list, starting from the empty dict. -/
def create_price_catalogue (product_list : List Entry) : Except PyErr PyDict :=
  create_price_catalogue_from [] product_list

/-- The warnings func_total_cost prints, one constructor per print call,
carrying exactly the data interpolated into the message. -/
inductive Warning where
  | missingProduct (sale : Entry)
  | invalidQuantity (product_name : JVal) (quantity : JVal)
  | notFound (product_name : JVal)

/-- One iteration of the loop of func_total_cost on a single sale record:
the contribution added to total_cost and the warnings printed, or the
exception raised.  The membership test product_name in price_dict and the
subsequent indexing price_dict[product_name] are fused into one dictFind;
a TypeError is raised when product_name is unhashable (as the Python
membership test does) or when the stored price is not numeric (as the
Python expression total_cost += price * quantity does). -/
def saleStep (price_dict : PyDict) (sale : Entry) : Except PyErr (ℚ × List Warning) :=
  let product_name := entryGet sale "Product"
  let quantity := entryGet sale "Quantity"
  if !pyTruthy product_name then
    .ok (0, [.missingProduct sale])
  else if !isNum quantity then
    .ok (0, [.invalidQuantity product_name quantity])
  else if !hashable product_name then
    .error .typeError
  else
    match dictFind price_dict product_name with
    | some price =>
        match toRat price with
        | some p => .ok (p * (toRat quantity).getD 0, [])
        | none => .error .typeError
    | none => .ok (0, [.notFound product_name])

/-- Loop of func_total_cost with the accumulator and printed warnings
explicit: processes the sale records in order, threading total_cost. -/
def func_total_cost_from (price_dict : PyDict) :
    List Entry → ℚ → List Warning → Except PyErr (ℚ × List Warning)
  | [], total_cost, out => .ok (total_cost, out)
  | sale :: rest, total_cost, out =>
      match saleStep price_dict sale with
      | .ok (c, ws) => func_total_cost_from price_dict rest (total_cost + c) (out ++ ws)
      | .error e => .error e

/-- func_total_cost of the source: total cost of the sales list, together
with the warnings printed, in order; or the exception raised. -/
def func_total_cost (price_dict : PyDict) (sales_list : List Entry) :
    Except PyErr (ℚ × List Warning) :=
  func_total_cost_from price_dict sales_list 0 []

/-- Contribution of a single sale record to the total, read off the branch
structure of the loop body: price times quantity when the product name is
truthy, the quantity numeric and the product found, zero otherwise. -/
def saleContrib (price_dict : PyDict) (sale : Entry) : ℚ :=
  let product_name := entryGet sale "Product"
  let quantity := entryGet sale "Quantity"
  if pyTruthy product_name && isNum quantity then
    match dictFind price_dict product_name with
    | some price => (toRat price).getD 0 * (toRat quantity).getD 0
    | none => 0
  else 0

/-- Warnings printed for a single sale record, read off the branch structure
of the loop body. -/
def saleWarnings (price_dict : PyDict) (sale : Entry) : List Warning :=
  let product_name := entryGet sale "Product"
  let quantity := entryGet sale "Quantity"
  if !pyTruthy product_name then [.missingProduct sale]
  else if !isNum quantity then [.invalidQuantity product_name quantity]
  else
    match dictFind price_dict product_name with
    | some _ => []
    | none => [.notFound product_name]

/-- The total as the specification words it: the sum of price(p) times q over
exactly those sale records whose product name is truthy, whose quantity is
numeric, and whose product exists in the catalogue. -/
def specTotal (catalogue : PyDict) (sales : List Entry) : ℚ :=
  ((sales.filter fun s =>
      pyTruthy (entryGet s "Product") && isNum (entryGet s "Quantity")
        && (dictFind catalogue (entryGet s "Product")).isSome).map
    fun s =>
      (toRat ((dictFind catalogue (entryGet s "Product")).getD .jnull)).getD 0
        * (toRat (entryGet s "Quantity")).getD 0).sum

/-- Prices of the entries of a product list that pass the inclusion filter of
create_price_catalogue and whose title is the given key, in input order. -/
def passingPricesFor (product_list : List Entry) (k : JVal) : List JVal :=
  product_list.filterMap fun item =>
    if (pyTruthy (entryGet item "title") && isNum (entryGet item "price"))
        && pyEq (entryGet item "title") k then
      some (entryGet item "price")
    else none

/-- The mutable state of func_total_cost: the price dict it was handed, the
accumulator and the printed output. -/
structure PyState where
  price_dict : PyDict
  total_cost : ℚ
  out : List Warning

/-- func_total_cost as a transformer of the full state, with the dict kept in
the state across iterations: the loop body only reads price_dict (the
membership test and the indexing), and writes total_cost and the output. -/
def func_total_cost_state : PyState → List Entry → Except PyErr PyState
  | st, [] => .ok st
  | st, sale :: rest =>
      match saleStep st.price_dict sale with
      | .ok (c, ws) =>
          func_total_cost_state
            { price_dict := st.price_dict, total_cost := st.total_cost + c,
              out := st.out ++ ws } rest
      | .error e => .error e

/-- Big-step relation for the loop of func_total_cost: from an accumulator
and output, running the remaining sale records yields the given outcome.
One constructor per way an iteration can go. -/
inductive TotalRun (price_dict : PyDict) :
    List Entry → ℚ × List Warning → Except PyErr (ℚ × List Warning) → Prop where
  | done (acc : ℚ × List Warning) : TotalRun price_dict [] acc (.ok acc)
  | step (sale : Entry) (rest : List Entry) (acc : ℚ × List Warning)
      (c : ℚ) (ws : List Warning) (r : Except PyErr (ℚ × List Warning))
      (hstep : saleStep price_dict sale = .ok (c, ws))
      (hrest : TotalRun price_dict rest (acc.1 + c, acc.2 ++ ws) r) :
      TotalRun price_dict (sale :: rest) acc r
  | fail (sale : Entry) (rest : List Entry) (acc : ℚ × List Warning) (e : PyErr)
      (hstep : saleStep price_dict sale = .error e) :
      TotalRun price_dict (sale :: rest) acc (.error e)

/- Concrete inputs used by witnesses and counterexamples. -/

/-- A catalogue with one product, Gum at price 2.0. -/
def pdGum : PyDict := [(.jstr "Gum", .jfloat 2)]

/-- A sale of 3 Gum. -/
def gumSale : Entry := [("Product", .jstr "Gum"), ("Quantity", .jint 3)]

/-- A sale of 1 Candy, a product absent from pdGum. -/
def candySale : Entry := [("Product", .jstr "Candy"), ("Quantity", .jint 1)]

/-- A sale record whose Product field is a JSON array: truthy but unhashable,
so the membership test raises a TypeError. -/
def listProductSale : Entry := [("Product", .jlist [.jint 1]), ("Quantity", .jint 1)]

/-- A second such record, with a different array value. -/
def listProductSale2 : Entry := [("Product", .jlist [.jstr "x"]), ("Quantity", .jint 2)]

/-- A sale of Gum whose Quantity is the boolean True. -/
def boolQtySale : Entry := [("Product", .jstr "Gum"), ("Quantity", .jbool true)]

/-- A sale of Gum with quantity minus one. -/
def negQtySale : Entry := [("Product", .jstr "Gum"), ("Quantity", .jint (-1))]

/-- A product entry whose price is the boolean True. -/
def boolPriceItem : Entry := [("title", .jstr "Chip"), ("price", .jbool true)]

/-- Two product entries sharing the title Pen with different prices. -/
def penItem1 : Entry := [("title", .jstr "Pen"), ("price", .jint 5)]

/-- Second Pen entry, price 9, later in input order. -/
def penItem2 : Entry := [("title", .jstr "Pen"), ("price", .jint 9)]

/-- Python equality on keys is symmetric. -/
lemma pyEq_symm (a b : JVal) : pyEq a b = pyEq b a := by
  cases a <;> cases b <;>
    simp [pyEq, toRat, decide_eq_decide, eq_comm, beq_iff_eq]

/-- Python equality on keys is transitive. -/
lemma pyEq_trans {a b c : JVal} (h1 : pyEq a b = true) (h2 : pyEq b c = true) :
    pyEq a c = true := by
  cases a <;> cases b <;> cases c <;> simp_all [pyEq, toRat, beq_iff_eq]

/-- Lookup after assignment: the new value under any key equivalent to the
assigned one, the old lookup elsewhere. -/
lemma dictFind_dictSetKnown (d : PyDict) (k v j : JVal) :
    dictFind (dictSetKnown d k v) j
      = if pyEq k j = true then some v else dictFind d j := by
  induction d with
  | nil => simp [dictSetKnown, dictFind]
  | cons kv0 rest ih =>
      obtain ⟨k0, v0⟩ := kv0
      by_cases h0 : pyEq k0 k = true
      · have hkk0 : pyEq k k0 = true := (pyEq_symm k k0).trans h0
        by_cases h0j : pyEq k0 j = true
        · have hkj : pyEq k j = true := pyEq_trans hkk0 h0j
          simp [dictSetKnown, dictFind, h0, h0j, hkj]
        · have hkj : pyEq k j = false := by
            rcases Bool.eq_false_or_eq_true (pyEq k j) with h | h
            · exact absurd (pyEq_trans h0 h) h0j
            · exact h
          simp [dictSetKnown, dictFind, h0, h0j, hkj]
      · by_cases h0j : pyEq k0 j = true
        · have hkj : pyEq k j = false := by
            rcases Bool.eq_false_or_eq_true (pyEq k j) with h | h
            · exact absurd (pyEq_trans h0j (pyEq_symm j k ▸ h)) h0
            · exact h
          simp [dictSetKnown, dictFind, h0, h0j, hkj]
        · simp [dictSetKnown, dictFind, h0, h0j, ih]

/-- A value produced by lookup is a stored value of the dict. -/
lemma mem_of_dictFind {d : PyDict} {k v : JVal} (h : dictFind d k = some v) :
    ∃ kv ∈ d, kv.2 = v := by
  induction d with
  | nil => simp [dictFind] at h
  | cons kv0 rest ih =>
      obtain ⟨k0, v0⟩ := kv0
      by_cases h0 : pyEq k0 k = true
      · simp [dictFind, h0] at h
        exact ⟨(k0, v0), by simp, h⟩
      · simp [dictFind, h0] at h
        obtain ⟨kv, hmem, hv⟩ := ih h
        exact ⟨kv, by simp [hmem], hv⟩

/-- getLast? of a cons, phrased with Option.or. -/
lemma getLast?_cons_or {α : Type} (a : α) (l : List α) :
    (a :: l).getLast? = l.getLast?.or (some a) := by
  cases l with
  | nil => simp
  | cons b t =>
      have hs : (b :: t).getLast?.isSome := List.getLast?_isSome.mpr (by simp)
      obtain ⟨x, hx⟩ := Option.isSome_iff_exists.mp hs
      simp [List.getLast?_cons_cons, hx]

/-- What lookup returns on a successfully built catalogue: the price of the
last passing entry with an equivalent title, else whatever the starting
accumulator held. -/
lemma create_from_find (L : List Entry) : ∀ (acc d : PyDict) (k : JVal),
    create_price_catalogue_from acc L = .ok d →
    dictFind d k = ((passingPricesFor L k).getLast?).or (dictFind acc k) := by
  induction L with
  | nil =>
      intro acc d k h
      simp only [create_price_catalogue_from] at h
      cases h
      simp [passingPricesFor]
  | cons item rest ih =>
      intro acc d k h
      simp only [create_price_catalogue_from] at h
      by_cases hp : (pyTruthy (entryGet item "title") && isNum (entryGet item "price")) = true
      · rw [if_pos hp] at h
        cases hh : hashable (entryGet item "title") with
        | false => rw [dictSet, hh] at h; simp at h
        | true =>
            rw [dictSet, hh] at h
            simp only at h
            have hrec := ih _ _ k h
            rw [dictFind_dictSetKnown] at hrec
            by_cases hk : pyEq (entryGet item "title") k = true
            · rw [hrec, if_pos hk]
              simp only [passingPricesFor, List.filterMap_cons, hp, hk,
                Bool.and_self, if_pos]
              rw [getLast?_cons_or, Option.or_assoc]
              simp [passingPricesFor]
            · rw [hrec, if_neg hk]
              simp only [passingPricesFor, List.filterMap_cons]
              rw [if_neg (by simp [hp, hk])]
      · rw [if_neg hp] at h
        have hrec := ih _ _ k h
        rw [hrec]
        simp only [passingPricesFor, List.filterMap_cons]
        rw [if_neg (by simp [hp])]

/-- The catalogue build succeeds when every entry passing the filter has a
hashable title. -/
lemma create_from_ok (L : List Entry)
    (hhash : ∀ item ∈ L,
      (pyTruthy (entryGet item "title") && isNum (entryGet item "price")) = true →
      hashable (entryGet item "title") = true) :
    ∀ acc : PyDict, ∃ d, create_price_catalogue_from acc L = .ok d := by
  induction L with
  | nil => intro acc; exact ⟨acc, rfl⟩
  | cons item rest ih =>
      intro acc
      have hrest : ∀ item2 ∈ rest,
          (pyTruthy (entryGet item2 "title") && isNum (entryGet item2 "price")) = true →
          hashable (entryGet item2 "title") = true :=
        fun item2 hm => hhash item2 (by simp [hm])
      by_cases hp : (pyTruthy (entryGet item "title") && isNum (entryGet item "price")) = true
      · have hh : hashable (entryGet item "title") = true := hhash item (by simp) hp
        obtain ⟨d, hd⟩ := ih hrest (dictSetKnown acc (entryGet item "title") (entryGet item "price"))
        refine ⟨d, ?_⟩
        simp only [create_price_catalogue_from]
        rw [if_pos hp, dictSet, hh]
        simpa using hd
      · obtain ⟨d, hd⟩ := ih hrest acc
        refine ⟨d, ?_⟩
        simp only [create_price_catalogue_from]
        rw [if_neg hp]
        exact hd

/-- A value passing the isinstance check has a numeric value. -/
lemma toRat_isSome_of_isNum {v : JVal} (h : isNum v = true) :
    (toRat v).isSome = true := by
  cases v <;> simp_all [isNum, toRat]

/-- Under a numeric-valued catalogue and a hashable product name, one loop
iteration returns exactly its pure contribution and warnings. -/
lemma saleStep_eq_pure (price_dict : PyDict) (sale : Entry)
    (hprices : ∀ kv ∈ price_dict, isNum kv.2 = true)
    (hhash : pyTruthy (entryGet sale "Product") = true →
      isNum (entryGet sale "Quantity") = true →
      hashable (entryGet sale "Product") = true) :
    saleStep price_dict sale
      = .ok (saleContrib price_dict sale, saleWarnings price_dict sale) := by
  unfold saleStep saleContrib saleWarnings
  by_cases ht : pyTruthy (entryGet sale "Product") = true
  · by_cases hq : isNum (entryGet sale "Quantity") = true
    · have hh := hhash ht hq
      simp only [ht, hq, hh, Bool.not_true, Bool.and_self, if_false, if_true,
        Bool.false_eq_true]
      cases hfind : dictFind price_dict (entryGet sale "Product") with
      | none => simp
      | some price =>
          obtain ⟨kv, hmem, hv⟩ := mem_of_dictFind hfind
          have hnum : isNum price = true := hv ▸ hprices kv hmem
          obtain ⟨p, hp⟩ := Option.isSome_iff_exists.mp (toRat_isSome_of_isNum hnum)
          simp [hp]
    · simp [ht, hq]
  · simp [ht]

/-- The loop equals initial accumulator plus the per-record contributions,
with the per-record warnings appended in input order. -/
lemma func_total_cost_from_eq (price_dict : PyDict)
    (hprices : ∀ kv ∈ price_dict, isNum kv.2 = true) :
    ∀ S : List Entry,
      (∀ s ∈ S, pyTruthy (entryGet s "Product") = true →
        isNum (entryGet s "Quantity") = true →
        hashable (entryGet s "Product") = true) →
      ∀ (t : ℚ) (w : List Warning),
        func_total_cost_from price_dict S t w
          = .ok (t + (S.map (saleContrib price_dict)).sum,
                 w ++ S.flatMap (saleWarnings price_dict)) := by
  intro S
  induction S with
  | nil => intro _ t w; simp [func_total_cost_from]
  | cons s rest ih =>
      intro hhash t w
      have hstep := saleStep_eq_pure price_dict s hprices (hhash s (by simp))
      simp only [func_total_cost_from, hstep,
        ih (fun s2 hm => hhash s2 (by simp [hm]))]
      simp [add_assoc]

/-- The per-record contributions sum to the total as the spec words it. -/
lemma sum_saleContrib_eq_specTotal (price_dict : PyDict) (S : List Entry) :
    (S.map (saleContrib price_dict)).sum = specTotal price_dict S := by
  induction S with
  | nil => simp [specTotal]
  | cons s rest ih =>
      by_cases hc : (pyTruthy (entryGet s "Product") && isNum (entryGet s "Quantity")
          && (dictFind price_dict (entryGet s "Product")).isSome) = true
      · obtain ⟨price, hp⟩ := Option.isSome_iff_exists.mp
          (by exact (Bool.and_eq_true .. ▸ hc).2)
        have hcontrib : saleContrib price_dict s
            = (toRat ((dictFind price_dict (entryGet s "Product")).getD .jnull)).getD 0
              * (toRat (entryGet s "Quantity")).getD 0 := by
          unfold saleContrib
          rw [if_pos (Bool.and_eq_true .. ▸ hc).1, hp]
          simp [hp]
        simp only [specTotal, List.filter_cons, hc, if_true, List.map_cons,
          List.sum_cons, List.map_cons, List.sum_cons]
        rw [hcontrib, ih]
        rfl
      · have hcontrib : saleContrib price_dict s = 0 := by
          unfold saleContrib
          by_cases hpass : (pyTruthy (entryGet s "Product")
              && isNum (entryGet s "Quantity")) = true
          · rw [if_pos hpass]
            cases hfind : dictFind price_dict (entryGet s "Product") with
            | none => rfl
            | some price => exact absurd (by simp [hpass, hfind]) hc
          · rw [if_neg hpass]
        simp only [specTotal, List.filter_cons, hc, List.map_cons, List.sum_cons,
          Bool.false_eq_true, if_false]
        rw [hcontrib, ih]
        simp [specTotal]

/-- When all catalogue prices and the quantity of the record are nonnegative,
an iteration that completes contributes a nonnegative amount. -/
lemma saleStep_contrib_nonneg {price_dict : PyDict} {sale : Entry}
    (hprices : ∀ kv ∈ price_dict, ∀ p, toRat kv.2 = some p → 0 ≤ p)
    (hqty : ∀ q, toRat (entryGet sale "Quantity") = some q → 0 ≤ q)
    {c : ℚ} {ws : List Warning}
    (h : saleStep price_dict sale = .ok (c, ws)) : 0 ≤ c := by
  by_cases ht : pyTruthy (entryGet sale "Product") = true
  · by_cases hq : isNum (entryGet sale "Quantity") = true
    · by_cases hh : hashable (entryGet sale "Product") = true
      · cases hfind : dictFind price_dict (entryGet sale "Product") with
        | none =>
            have hs : saleStep price_dict sale
                = .ok (0, [.notFound (entryGet sale "Product")]) := by
              unfold saleStep; simp [ht, hq, hh, hfind]
            rw [hs] at h
            simp only [Except.ok.injEq, Prod.mk.injEq] at h
            rw [← h.1]
        | some price =>
            cases hp : toRat price with
            | none =>
                have hs : saleStep price_dict sale = .error .typeError := by
                  unfold saleStep; simp [ht, hq, hh, hfind, hp]
                rw [hs] at h; cases h
            | some p =>
                have hs : saleStep price_dict sale
                    = .ok (p * (toRat (entryGet sale "Quantity")).getD 0, []) := by
                  unfold saleStep; simp [ht, hq, hh, hfind, hp]
                rw [hs] at h
                simp only [Except.ok.injEq, Prod.mk.injEq] at h
                obtain ⟨kv, hmem, hv⟩ := mem_of_dictFind hfind
                have hp0 : 0 ≤ p := hprices kv hmem p (hv ▸ hp)
                have hq0 : 0 ≤ (toRat (entryGet sale "Quantity")).getD 0 := by
                  cases hqv : toRat (entryGet sale "Quantity") with
                  | none => simp
                  | some q => simpa using hqty q hqv
                rw [← h.1]
                exact mul_nonneg hp0 hq0
      · have hs : saleStep price_dict sale = .error .typeError := by
          unfold saleStep; simp [ht, hq, hh]
        rw [hs] at h; cases h
    · have hs : saleStep price_dict sale
          = .ok (0, [.invalidQuantity (entryGet sale "Product") (entryGet sale "Quantity")]) := by
        unfold saleStep; simp [ht, hq]
      rw [hs] at h
      simp only [Except.ok.injEq, Prod.mk.injEq] at h
      rw [← h.1]
  · have hs : saleStep price_dict sale = .ok (0, [.missingProduct sale]) := by
      unfold saleStep; simp [ht]
    rw [hs] at h
    simp only [Except.ok.injEq, Prod.mk.injEq] at h
    rw [← h.1]

/-- From any intermediate accumulator, a completing run can only increase the
total when prices and quantities are nonnegative. -/
lemma func_total_cost_from_mono {price_dict : PyDict}
    (hprices : ∀ kv ∈ price_dict, ∀ p, toRat kv.2 = some p → 0 ≤ p) :
    ∀ S : List Entry,
      (∀ s ∈ S, ∀ q, toRat (entryGet s "Quantity") = some q → 0 ≤ q) →
      ∀ (t : ℚ) (w : List Warning) (t2 : ℚ) (w2 : List Warning),
        func_total_cost_from price_dict S t w = .ok (t2, w2) → t ≤ t2 := by
  intro S
  induction S with
  | nil =>
      intro _ t w t2 w2 h
      simp only [func_total_cost_from, Except.ok.injEq, Prod.mk.injEq] at h
      exact le_of_eq h.1
  | cons s rest ih =>
      intro hqty t w t2 w2 h
      rw [func_total_cost_from] at h
      cases hstep : saleStep price_dict s with
      | ok cw =>
          obtain ⟨c, ws⟩ := cw
          simp only [hstep] at h
          have hc : 0 ≤ c :=
            saleStep_contrib_nonneg hprices (hqty s (by simp)) hstep
          have := ih (fun s2 hm => hqty s2 (by simp [hm])) (t + c) (w ++ ws) t2 w2 h
          linarith
      | error e => rw [hstep] at h; cases h

/-- The loop realises the big-step relation. -/
lemma totalRun_adequate (price_dict : PyDict) :
    ∀ (S : List Entry) (acc : ℚ × List Warning),
      TotalRun price_dict S acc (func_total_cost_from price_dict S acc.1 acc.2) := by
  intro S
  induction S with
  | nil =>
      rintro ⟨t, w⟩
      rw [func_total_cost_from]
      exact TotalRun.done (t, w)
  | cons s rest ih =>
      rintro ⟨t, w⟩
      cases hstep : saleStep price_dict s with
      | ok cw =>
          obtain ⟨c, ws⟩ := cw
          rw [func_total_cost_from, hstep]
          exact TotalRun.step s rest (t, w) c ws _ hstep (ih (t + c, w ++ ws))
      | error e =>
          rw [func_total_cost_from, hstep]
          exact TotalRun.fail s rest (t, w) e hstep

/-- The big-step relation is deterministic. -/
lemma totalRun_det {price_dict : PyDict} {S : List Entry} {acc : ℚ × List Warning}
    {r1 r2 : Except PyErr (ℚ × List Warning)}
    (h1 : TotalRun price_dict S acc r1) (h2 : TotalRun price_dict S acc r2) :
    r1 = r2 := by
  induction h1 generalizing r2 with
  | done acc => cases h2 with | done => rfl
  | step s rest acc c ws r hstep hrest ih =>
      cases h2 with
      | step _ _ _ c2 ws2 r2 hstep2 hrest2 =>
          rw [hstep] at hstep2
          simp only [Except.ok.injEq, Prod.mk.injEq] at hstep2
          obtain ⟨hc, hw⟩ := hstep2
          subst hc; subst hw
          exact ih hrest2
      | fail _ _ _ e hstep2 => rw [hstep] at hstep2; cases hstep2
  | fail s rest acc e hstep =>
      cases h2 with
      | step _ _ _ c2 ws2 r2 hstep2 hrest2 => rw [hstep] at hstep2; cases hstep2
      | fail _ _ _ e2 hstep2 => rw [hstep] at hstep2

/-- C1 counterexample: on a sale record whose Product is a truthy JSON array,
func_total_cost raises a TypeError (the Python membership test hashes the
key), so it returns no total at all, while the sum the claim describes is 0
for this input. -/
theorem func_total_cost_list_product_raises :
    func_total_cost pdGum [listProductSale] = .error PyErr.typeError
    ∧ specTotal pdGum [listProductSale] = 0 := by
  constructor
  · simp +decide [func_total_cost, func_total_cost_from, saleStep, entryGet,
      pyTruthy, isNum, hashable, dictFind, pyEq, toRat, pdGum, listProductSale]
  · simp +decide [specTotal, entryGet, pyTruthy, isNum, dictFind, pyEq, toRat,
      pdGum, listProductSale]

/-- C1 (amended): for a price catalogue (all stored values numeric) and sale
records whose truthy, numeric-quantity Products are hashable, func_total_cost
returns exactly the sum of price(p) * q over those records whose Product is
truthy, whose Quantity is numeric (int, float, or bool: the isinstance check
accepts booleans), and whose Product is in the catalogue. -/
theorem func_total_cost_eq_specTotal (price_dict : PyDict) (S : List Entry)
    (hprices : ∀ kv ∈ price_dict, isNum kv.2 = true)
    (hhash : ∀ s ∈ S, pyTruthy (entryGet s "Product") = true →
      isNum (entryGet s "Quantity") = true →
      hashable (entryGet s "Product") = true) :
    ∃ ws, func_total_cost price_dict S = .ok (specTotal price_dict S, ws) := by
  refine ⟨S.flatMap (saleWarnings price_dict), ?_⟩
  rw [func_total_cost, func_total_cost_from_eq price_dict hprices S hhash 0 [],
    sum_saleContrib_eq_specTotal]
  simp

/-- Witness for C1 at the spec scenario: Gum at 2.0, a sale of 3 Gum and one
Candy. -/
theorem func_total_cost_eq_specTotal_witness :
    ∃ ws, func_total_cost pdGum [gumSale, candySale]
      = .ok (specTotal pdGum [gumSale, candySale], ws) :=
  func_total_cost_eq_specTotal pdGum [gumSale, candySale]
    (by intro kv hkv; simp [pdGum] at hkv; subst hkv; rfl)
    (by intro s hs; simp [gumSale, candySale] at hs
        rcases hs with rfl | rfl <;> intro _ _ <;> decide)

/-- C2 counterexample: a sale of Gum with Quantity True is not warned about
and not skipped: the boolean passes isinstance(quantity, (int, float)) and
the record contributes price * True = 2.0 to the total. -/
theorem bool_quantity_counted :
    func_total_cost pdGum [boolQtySale] = .ok (2, []) := by
  simp +decide [func_total_cost, func_total_cost_from, saleStep, entryGet,
    pyTruthy, isNum, hashable, dictFind, pyEq, toRat, pdGum, boolQtySale]

/-- C2 (amended): a boolean Quantity is treated as numeric (bool is an int
subtype in Python): no warning is emitted and the record contributes
price * (1 if True else 0). -/
theorem bool_quantity_treated_numeric (price_dict : PyDict) (sale : Entry)
    (b : Bool) (price : JVal) (p : ℚ)
    (hq : entryGet sale "Quantity" = .jbool b)
    (ht : pyTruthy (entryGet sale "Product") = true)
    (hh : hashable (entryGet sale "Product") = true)
    (hfind : dictFind price_dict (entryGet sale "Product") = some price)
    (hp : toRat price = some p) :
    saleStep price_dict sale = .ok (p * (if b then 1 else 0), []) := by
  unfold saleStep
  simp [hq, ht, hh, hfind, hp, isNum]
  cases b <;> simp [toRat]

/-- Witness for C2: Quantity True on the Gum sale contributes 2 * 1. -/
theorem bool_quantity_treated_numeric_witness :
    saleStep pdGum boolQtySale = .ok (2 * (if true then 1 else 0), []) :=
  bool_quantity_treated_numeric pdGum boolQtySale true (.jfloat 2) 2
    (by rfl) (by rfl) (by rfl)
    (by simp +decide [pdGum, boolQtySale, entryGet, dictFind, pyEq, toRat])
    (by rfl)

/-- C3 counterexample: an entry whose price is the boolean True passes the
isinstance filter (bool is an int subtype) and is included in the catalogue,
though the claim says boolean prices are excluded. -/
theorem bool_price_included :
    create_price_catalogue [boolPriceItem]
      = .ok [(JVal.jstr "Chip", JVal.jbool true)] := by
  simp +decide [create_price_catalogue, create_price_catalogue_from, dictSet,
    dictSetKnown, entryGet, pyTruthy, isNum, hashable, boolPriceItem]

/-- C3 (amended): provided every entry passing the filter has a hashable
title, the build succeeds silently and the catalogue has an entry under a
key exactly when some product entry has a truthy title equivalent to that
key and a price passing isinstance(price, (int, float)) — which accepts
booleans; all other entries are silently excluded. -/
theorem create_price_catalogue_inclusion (L : List Entry)
    (hhash : ∀ item ∈ L,
      (pyTruthy (entryGet item "title") && isNum (entryGet item "price")) = true →
      hashable (entryGet item "title") = true) :
    ∃ d, create_price_catalogue L = .ok d ∧ ∀ k,
      ((dictFind d k).isSome = true ↔
        ∃ item ∈ L,
          (pyTruthy (entryGet item "title") && isNum (entryGet item "price")) = true
          ∧ pyEq (entryGet item "title") k = true) := by
  obtain ⟨d, hd⟩ := create_from_ok L hhash []
  refine ⟨d, hd, fun k => ?_⟩
  have hfind := create_from_find L [] d k hd
  rw [show dictFind ([] : PyDict) k = none from rfl, Option.or_none] at hfind
  rw [hfind]
  constructor
  · intro hs
    have hne := List.getLast?_isSome.mp hs
    obtain ⟨p, hp⟩ := List.exists_mem_of_ne_nil _ hne
    simp only [passingPricesFor, List.mem_filterMap] at hp
    obtain ⟨item, hmem, hcond⟩ := hp
    by_cases hc : ((pyTruthy (entryGet item "title") && isNum (entryGet item "price"))
        && pyEq (entryGet item "title") k) = true
    · exact ⟨item, hmem, (Bool.and_eq_true .. ▸ hc).1, (Bool.and_eq_true .. ▸ hc).2⟩
    · rw [if_neg hc] at hcond; cases hcond
  · rintro ⟨item, hmem, hpass, hk⟩
    apply List.getLast?_isSome.mpr
    intro hnil
    have hin : entryGet item "price" ∈ passingPricesFor L k := by
      simp only [passingPricesFor, List.mem_filterMap]
      exact ⟨item, hmem, by rw [if_pos (by simp [hpass, hk])]⟩
    rw [hnil] at hin
    cases hin

/-- Witness for C3 at the boolean-priced entry: it is included. -/
theorem create_price_catalogue_inclusion_witness :
    ∃ d, create_price_catalogue [boolPriceItem] = .ok d ∧ ∀ k,
      ((dictFind d k).isSome = true ↔
        ∃ item ∈ [boolPriceItem],
          (pyTruthy (entryGet item "title") && isNum (entryGet item "price")) = true
          ∧ pyEq (entryGet item "title") k = true) :=
  create_price_catalogue_inclusion [boolPriceItem]
    (by intro item hm _; simp at hm; subst hm; decide)

/-- C4 counterexample: a record whose Product is a truthy JSON array makes
the run raise a TypeError, so the following record (a valid Candy sale) is
never processed — func_total_cost does not process all records and does
raise. -/
theorem func_total_cost_stops_on_typeError :
    func_total_cost pdGum [listProductSale2, candySale] = .error PyErr.typeError := by
  simp +decide [func_total_cost, func_total_cost_from, saleStep, entryGet,
    pyTruthy, isNum, hashable, dictFind, pyEq, toRat, pdGum, listProductSale2,
    candySale]

/-- C4 (amended): for a price catalogue (numeric values) and records whose
truthy, numeric-quantity Products are hashable, func_total_cost never
raises: it returns the per-record contributions summed over all records in
input order with their warnings concatenated in input order, and each
record either warns nothing or emits exactly one warning and contributes
zero. -/
theorem func_total_cost_processes_all (price_dict : PyDict) (S : List Entry)
    (hprices : ∀ kv ∈ price_dict, isNum kv.2 = true)
    (hhash : ∀ s ∈ S, pyTruthy (entryGet s "Product") = true →
      isNum (entryGet s "Quantity") = true →
      hashable (entryGet s "Product") = true) :
    func_total_cost price_dict S
      = .ok ((S.map (saleContrib price_dict)).sum,
             S.flatMap (saleWarnings price_dict))
    ∧ ∀ s ∈ S, saleWarnings price_dict s = []
        ∨ ((saleWarnings price_dict s).length = 1 ∧ saleContrib price_dict s = 0) := by
  constructor
  · rw [func_total_cost, func_total_cost_from_eq price_dict hprices S hhash 0 []]
    simp
  · intro s _
    by_cases ht : pyTruthy (entryGet s "Product") = true
    · by_cases hq : isNum (entryGet s "Quantity") = true
      · cases hfind : dictFind price_dict (entryGet s "Product") with
        | some price =>
            left
            unfold saleWarnings
            simp [ht, hq, hfind]
        | none =>
            right
            constructor
            · unfold saleWarnings; simp [ht, hq, hfind]
            · unfold saleContrib; simp [ht, hq, hfind]
      · right
        constructor
        · unfold saleWarnings; simp [ht, hq]
        · unfold saleContrib; simp [hq]
    · right
      constructor
      · unfold saleWarnings; simp [ht]
      · unfold saleContrib; simp [ht]

/-- Witness for C4 at the Gum catalogue with one found and one missing
product. -/
theorem func_total_cost_processes_all_witness :
    func_total_cost pdGum [gumSale, candySale]
      = .ok (([gumSale, candySale].map (saleContrib pdGum)).sum,
             [gumSale, candySale].flatMap (saleWarnings pdGum))
    ∧ ∀ s ∈ [gumSale, candySale], saleWarnings pdGum s = []
        ∨ ((saleWarnings pdGum s).length = 1 ∧ saleContrib pdGum s = 0) :=
  func_total_cost_processes_all pdGum [gumSale, candySale]
    (by intro kv hkv; simp [pdGum] at hkv; subst hkv; rfl)
    (by intro s hs; simp [gumSale, candySale] at hs
        rcases hs with rfl | rfl <;> intro _ _ <;> decide)

/-- C5 counterexample: quantities are only type-checked, not sign-checked:
a sale of Gum with quantity minus one runs the total from 0 down to
minus two, so the running total is not monotonically non-decreasing. -/
theorem negative_quantity_decreases_total :
    func_total_cost pdGum [negQtySale] = .ok (-2, []) ∧ (-2 : ℚ) < 0 := by
  refine ⟨?_, by norm_num⟩
  simp +decide [func_total_cost, func_total_cost_from, saleStep, entryGet,
    pyTruthy, isNum, hashable, dictFind, pyEq, toRat, pdGum, negQtySale]

/-- C5 (amended): the running total is monotonically non-decreasing when
every catalogue price and every numeric quantity in the sales list is
nonnegative: from any intermediate accumulator value, a completing run only
increases the total. -/
theorem func_total_cost_monotone_of_nonneg (price_dict : PyDict) (S : List Entry)
    (hprices : ∀ kv ∈ price_dict, ∀ p, toRat kv.2 = some p → 0 ≤ p)
    (hqty : ∀ s ∈ S, ∀ q, toRat (entryGet s "Quantity") = some q → 0 ≤ q)
    (t : ℚ) (w : List Warning) (t2 : ℚ) (w2 : List Warning)
    (h : func_total_cost_from price_dict S t w = .ok (t2, w2)) : t ≤ t2 :=
  func_total_cost_from_mono hprices S hqty t w t2 w2 h

/-- Witness for C5 on the Gum sale: the total rises from 0 to 6. -/
theorem func_total_cost_monotone_of_nonneg_witness : (0 : ℚ) ≤ 6 :=
  func_total_cost_monotone_of_nonneg pdGum [gumSale]
    (by intro kv hkv p hp; simp [pdGum] at hkv; subst hkv;
        simp [toRat] at hp; subst hp; norm_num)
    (by intro s hs q hq; simp [gumSale] at hs; subst hs
        simp [gumSale, entryGet, toRat] at hq; subst hq; norm_num)
    0 [] 6 []
    (by simp +decide [func_total_cost_from, saleStep, entryGet, pyTruthy,
          isNum, hashable, dictFind, pyEq, toRat, pdGum, gumSale]
        norm_num)

/-- C6: on a successfully built catalogue, looking up a title returns the
price of the last entry in input order that passes the inclusion filter and
has an equivalent title; with at least two such entries, the duplicate is
resolved in favour of the later one and the lookup succeeds. -/
theorem create_price_catalogue_last_wins (L : List Entry) (d : PyDict) (t : JVal)
    (hok : create_price_catalogue L = .ok d)
    (hdup : 2 ≤ (passingPricesFor L t).length) :
    dictFind d t = (passingPricesFor L t).getLast?
    ∧ ((passingPricesFor L t).getLast?).isSome = true := by
  have hfind := create_from_find L [] d t hok
  rw [show dictFind ([] : PyDict) t = none from rfl, Option.or_none] at hfind
  refine ⟨hfind, ?_⟩
  apply List.getLast?_isSome.mpr
  intro hnil
  rw [hnil] at hdup
  simp at hdup

/-- Witness for C6: two Pen entries at prices 5 then 9; the built catalogue
maps Pen to 9, the last price. -/
theorem create_price_catalogue_last_wins_witness :
    dictFind [(JVal.jstr "Pen", JVal.jint 9)] (JVal.jstr "Pen")
      = (passingPricesFor [penItem1, penItem2] (JVal.jstr "Pen")).getLast?
    ∧ ((passingPricesFor [penItem1, penItem2] (JVal.jstr "Pen")).getLast?).isSome
        = true :=
  create_price_catalogue_last_wins [penItem1, penItem2]
    [(JVal.jstr "Pen", JVal.jint 9)] (JVal.jstr "Pen")
    (by simp +decide [create_price_catalogue, create_price_catalogue_from,
          dictSet, dictSetKnown, entryGet, pyTruthy, isNum, hashable, pyEq,
          toRat, penItem1, penItem2])
    (by simp +decide [passingPricesFor, entryGet, pyTruthy, isNum, pyEq,
          toRat, penItem1, penItem2])

/-- C7: a sale record with a truthy, hashable product name and a numeric
quantity whose product is absent from the catalogue contributes 0 and emits
exactly one warning carrying that product name. -/
theorem saleStep_not_found (price_dict : PyDict) (sale : Entry)
    (ht : pyTruthy (entryGet sale "Product") = true)
    (hq : isNum (entryGet sale "Quantity") = true)
    (hh : hashable (entryGet sale "Product") = true)
    (habsent : dictFind price_dict (entryGet sale "Product") = none) :
    saleStep price_dict sale
      = .ok (0, [Warning.notFound (entryGet sale "Product")]) := by
  unfold saleStep
  simp [ht, hq, hh, habsent]

/-- Witness for C7: the Candy sale against the Gum catalogue. -/
theorem saleStep_not_found_witness :
    saleStep pdGum candySale
      = .ok (0, [Warning.notFound (entryGet candySale "Product")]) :=
  saleStep_not_found pdGum candySale (by rfl) (by rfl) (by rfl)
    (by simp +decide [pdGum, candySale, entryGet, dictFind, pyEq, toRat])

/-- C8: the loop never writes to the price dict: whenever the stateful run
completes, the catalogue component of the state is unchanged. -/
theorem func_total_cost_state_preserves_catalogue :
    ∀ (S : List Entry) (st st2 : PyState),
      func_total_cost_state st S = .ok st2 → st2.price_dict = st.price_dict := by
  intro S
  induction S with
  | nil =>
      intro st st2 h
      rw [func_total_cost_state] at h
      cases h
      rfl
  | cons s rest ih =>
      intro st st2 h
      rw [func_total_cost_state] at h
      cases hstep : saleStep st.price_dict s with
      | ok cw =>
          obtain ⟨c, ws⟩ := cw
          simp only [hstep] at h
          have h2 := ih _ st2 h
          exact h2
      | error e => simp only [hstep] at h; cases h

/-- Witness for C8: against the Gum catalogue, processing the Candy sale
leaves the catalogue component untouched. -/
theorem func_total_cost_state_preserves_catalogue_witness :
    (PyState.mk pdGum 0 [Warning.notFound (JVal.jstr "Candy")]).price_dict
      = (PyState.mk pdGum 0 []).price_dict :=
  func_total_cost_state_preserves_catalogue [candySale]
    (PyState.mk pdGum 0 []) (PyState.mk pdGum 0 [Warning.notFound (JVal.jstr "Candy")])
    (by simp +decide [func_total_cost_state, saleStep, entryGet, pyTruthy,
      isNum, hashable, dictFind, pyEq, toRat, pdGum, candySale])

/-- C9: func_total_cost is deterministic: the loop realises the big-step
relation TotalRun, and any two outcomes TotalRun admits for the same
catalogue and sales list — total plus warning sequence, in order — are
equal. -/
theorem func_total_cost_deterministic (price_dict : PyDict) (S : List Entry) :
    TotalRun price_dict S (0, []) (func_total_cost price_dict S)
    ∧ ∀ r1 r2, TotalRun price_dict S (0, []) r1 →
        TotalRun price_dict S (0, []) r2 → r1 = r2 :=
  ⟨totalRun_adequate price_dict S (0, []),
   fun _ _ h1 h2 => totalRun_det h1 h2⟩

/-- Witness for C9: the two conjuncts pin the run on the Candy sale to its
one outcome. -/
theorem func_total_cost_deterministic_witness :
    func_total_cost pdGum [candySale]
      = .ok (0 + 0, [] ++ [Warning.notFound (JVal.jstr "Candy")]) :=
  (func_total_cost_deterministic pdGum [candySale]).2
    (func_total_cost pdGum [candySale])
    (.ok (0 + 0, [] ++ [Warning.notFound (JVal.jstr "Candy")]))
    (func_total_cost_deterministic pdGum [candySale]).1
    (TotalRun.step candySale [] (0, []) 0 [Warning.notFound (JVal.jstr "Candy")]
      _
      (by simp +decide [saleStep, entryGet, pyTruthy, isNum, hashable,
        dictFind, pyEq, toRat, pdGum, candySale])
      (TotalRun.done (0 + 0, [] ++ [Warning.notFound (JVal.jstr "Candy")])))

/-- C10: the product-name check rejects exactly the falsy values: the
missing-name warning fires precisely when the Product field (None when
absent) is falsy, and the falsy values are exactly None, False, 0, 0.0, the
empty string, the empty array and the empty object; every other value,
strings or not, proceeds past the name check. -/
theorem product_check_rejects_exactly_falsy (price_dict : PyDict) (sale : Entry) :
    (saleStep price_dict sale = .ok (0, [Warning.missingProduct sale])
      ↔ pyTruthy (entryGet sale "Product") = false)
    ∧ (pyTruthy (entryGet sale "Product") = false
      ↔ entryGet sale "Product" ∈ [JVal.jnull, JVal.jbool false, JVal.jint 0,
          JVal.jfloat 0, JVal.jstr "", JVal.jlist [], JVal.jobj []]) := by
  constructor
  · constructor
    · intro h
      by_cases ht : pyTruthy (entryGet sale "Product") = true
      · exfalso
        by_cases hq : isNum (entryGet sale "Quantity") = true
        · by_cases hh : hashable (entryGet sale "Product") = true
          · cases hfind : dictFind price_dict (entryGet sale "Product") with
            | none =>
                have hs : saleStep price_dict sale
                    = .ok (0, [.notFound (entryGet sale "Product")]) := by
                  unfold saleStep; simp [ht, hq, hh, hfind]
                rw [hs] at h
                simp at h
            | some price =>
                cases hp : toRat price with
                | some p =>
                    have hs : saleStep price_dict sale
                        = .ok (p * (toRat (entryGet sale "Quantity")).getD 0, []) := by
                      unfold saleStep; simp [ht, hq, hh, hfind, hp]
                    rw [hs] at h
                    simp at h
                | none =>
                    have hs : saleStep price_dict sale = .error .typeError := by
                      unfold saleStep; simp [ht, hq, hh, hfind, hp]
                    rw [hs] at h
                    cases h
          · have hs : saleStep price_dict sale = .error .typeError := by
              unfold saleStep; simp [ht, hq, hh]
            rw [hs] at h
            cases h
        · have hs : saleStep price_dict sale
              = .ok (0, [.invalidQuantity (entryGet sale "Product")
                  (entryGet sale "Quantity")]) := by
            unfold saleStep; simp [ht, hq]
          rw [hs] at h
          simp at h
      · exact Bool.eq_false_iff.mpr ht
    · intro hf
      unfold saleStep
      simp [hf]
  · generalize entryGet sale "Product" = v
    cases v with
    | jnull => simp [pyTruthy]
    | jbool b => cases b <;> simp [pyTruthy]
    | jint n => simp [pyTruthy]
    | jfloat q => simp [pyTruthy]
    | jstr s => simp [pyTruthy]
    | jlist xs => simp [pyTruthy, List.isEmpty_iff]
    | jobj fs => simp [pyTruthy, List.isEmpty_iff]

/-- Witness for C10: a record with no Product key at all is rejected by the
name check, with the one missing-name warning. -/
theorem product_check_rejects_exactly_falsy_witness :
    saleStep pdGum [("Quantity", JVal.jint 3)]
      = .ok (0, [Warning.missingProduct [("Quantity", JVal.jint 3)]]) :=
  (product_check_rejects_exactly_falsy pdGum [("Quantity", JVal.jint 3)]).1.mpr
    (by rfl)


